import Mathlib

/-!
Shallow embedding of the feature-extraction and scoring pipeline that the
notebook `src/notebooks/01-data-io-and-featurization.ipynb` orchestrates.
The notebook itself is glue code over the pyemma library; the library is not
part of this repository, so the pipeline components (featurizer, loader,
streamed reader, VAMP scorer) are modelled from the specification's contracts,
while the notebook's own call protocol (train/test slicing for the VAMP
scores) is embedded directly from the notebook cells.
-/

/-- A 3-D atomic coordinate (x, y, z). Coordinates are modelled over ℚ so the
embedding stays executable and decidable. -/
abbrev Coord : Type := ℚ × ℚ × ℚ

/-- Modelled from the spec: one trajectory frame, "a fixed-size array of 3-D
atomic coordinates" (one entry per atom of the topology). -/
abbrev Frame : Type := List Coord

/-- Modelled from the spec: a Trajectory is an "ordered sequence of frames;
one trajectory per input file; immutable once loaded". -/
abbrev Trajectory : Type := List Frame

/-- Modelled from the spec: a Topology is a "static description of atoms,
residues, and bonds"; only the atom count is ever consulted by the pipeline. -/
structure Topology where
  n_atoms : ℕ
deriving DecidableEq

/-- Modelled from the spec: a Feature Descriptor is "a composable
specification — selection of atoms, atom pairs for distance, dihedral
definition", optionally with the "derived trigonometric transforms of angles"
(the notebook's cossin flag on torsion features). -/
inductive FeatureDescriptor where
  | selection (atoms : List ℕ)
  | distances (atomPairs : List (ℕ × ℕ))
  | dihedral (quads : List (ℕ × ℕ × ℕ × ℕ)) (cossin : Bool)
deriving DecidableEq

/-- Output width of a single descriptor: a selection contributes three
coordinates per atom, a distance descriptor one scalar per pair, a dihedral
descriptor one angle per quadruple (two values per quadruple with the cos/sin
transform). -/
def FeatureDescriptor.dimension : FeatureDescriptor → ℕ
  | .selection atoms => 3 * atoms.length
  | .distances ps => ps.length
  | .dihedral qs cossin => (if cossin then 2 else 1) * qs.length

/-- The atom indices a descriptor refers to, used for validation against the
topology. -/
def FeatureDescriptor.indices : FeatureDescriptor → List ℕ
  | .selection atoms => atoms
  | .distances ps => (ps.map (fun p => [p.1, p.2])).flatten
  | .dihedral qs _ => (qs.map (fun q => [q.1, q.2.1, q.2.2.1, q.2.2.2])).flatten

/-- A descriptor is valid for a topology with `n` atoms when every atom index
it mentions is below `n`. -/
def FeatureDescriptor.validFor (d : FeatureDescriptor) (n : ℕ) : Bool :=
  d.indices.all (· < n)

/-- Coordinate of atom `i` in a frame (out-of-range reads yield the origin;
validated descriptors never perform them). -/
def atomCoord (fr : Frame) (i : ℕ) : Coord := fr.getD i (0, 0, 0)

/-- Squared-Euclidean stand-in for the distance metric. The real metric is the
external library's; it is kept inside ℚ here so the embedding is executable,
and every claim about distance features is shape-level. -/
def dist2 (a b : Coord) : ℚ :=
  (a.1 - b.1) ^ 2 + (a.2.1 - b.2.1) ^ 2 + (a.2.2 - b.2.2) ^ 2

/-- Computable stand-in for a dihedral angle over four atoms; the numeric
angle formula is the external library's, and every claim about dihedral
features is shape-level. -/
def dihedralAngle (fr : Frame) (q : ℕ × ℕ × ℕ × ℕ) : ℚ :=
  dist2 (atomCoord fr q.1) (atomCoord fr q.2.2.2) -
    dist2 (atomCoord fr q.2.1) (atomCoord fr q.2.2.1)

/-- Evaluate one descriptor on one frame, yielding its slice of the feature
vector. The cos/sin transform emits two values per angle (computable
stand-ins for the trigonometric pair). -/
def applyDescriptor (fr : Frame) : FeatureDescriptor → List ℚ
  | .selection atoms =>
      (atoms.map (fun i => [(atomCoord fr i).1, (atomCoord fr i).2.1,
        (atomCoord fr i).2.2])).flatten
  | .distances ps => ps.map (fun p => dist2 (atomCoord fr p.1) (atomCoord fr p.2))
  | .dihedral qs cossin =>
      if cossin then
        (qs.map (fun q => [1 - dihedralAngle fr q ^ 2, dihedralAngle fr q])).flatten
      else qs.map (dihedralAngle fr)

/-- Modelled from the spec: the Featurizer "accepts a topology at
construction" and holds the ordered, frozen list of declared descriptors. -/
structure Featurizer where
  topology : Topology
  descriptors : List FeatureDescriptor
deriving DecidableEq

/-- `pyemma.coordinates.featurizer(pdb)`: a fresh featurizer with no declared
descriptors. -/
def featurizer (top : Topology) : Featurizer := ⟨top, []⟩

/-- Error raised when a descriptor mentions an atom index outside the
topology (the spec names it OutOfRangeError in §4.1 and ConfigurationError in
§7; one error value models both names). -/
inductive FeatError where
  | outOfRange
deriving DecidableEq

/-- Modelled from the spec: descriptor additions are "each validated against
topology atom indices, failing with an OutOfRangeError if indices are
invalid", the failure "surfaced immediately at descriptor-declaration time,
not deferred to feature computation". -/
def Featurizer.add (f : Featurizer) (d : FeatureDescriptor) :
    Except FeatError Featurizer :=
  if d.validFor f.topology.n_atoms then
    .ok ⟨f.topology, f.descriptors ++ [d]⟩
  else .error .outOfRange

/-- `feat.add_selection(indices)` as used in the notebook's heavy-atom cell. -/
def Featurizer.add_selection (f : Featurizer) (atoms : List ℕ) :
    Except FeatError Featurizer :=
  f.add (.selection atoms)

/-- `feat.add_distances(pairs)` as used in the notebook's pairwise-distance
cell. -/
def Featurizer.add_distances (f : Featurizer) (ps : List (ℕ × ℕ)) :
    Except FeatError Featurizer :=
  f.add (.distances ps)

/-- `feat.add_backbone_torsions(...)` / `feat.add_sidechain_torsions(...)`:
declaring a dihedral descriptor, optionally with the cos/sin transform. -/
def Featurizer.add_torsions (f : Featurizer) (qs : List (ℕ × ℕ × ℕ × ℕ))
    (cossin : Bool) : Except FeatError Featurizer :=
  f.add (.dihedral qs cossin)

/-- All unordered pairs drawn from a selection, first component earlier in the
selection than the second. -/
def allPairs : List ℕ → List (ℕ × ℕ)
  | [] => []
  | a :: rest => rest.map (fun b => (a, b)) ++ allPairs rest

/-- `feat.pairs(selection)`: the unordered atom pairs of a selection, one pair
per two distinct selected atoms. -/
def Featurizer.pairs (_f : Featurizer) (sel : List ℕ) : List (ℕ × ℕ) :=
  allPairs sel

/-- Flattened Cartesian coordinates of a frame: x, y, z of every atom in atom
order. -/
def flattenCoords (fr : Frame) : List ℚ :=
  (fr.map (fun c => [c.1, c.2.1, c.2.2])).flatten

/-- Modelled from the spec: applying the Featurizer to a frame "produces a
feature vector whose length equals the sum of each descriptor's output width,
in declaration order"; "if no descriptors are declared, defaults to flattened
Cartesian coordinates of all atoms". -/
def Featurizer.featurize (f : Featurizer) (fr : Frame) : List ℚ :=
  if f.descriptors.isEmpty then flattenCoords fr
  else (f.descriptors.map (applyDescriptor fr)).flatten

/-- Declared output width of the featurizer. -/
def Featurizer.dimension (f : Featurizer) : ℕ :=
  if f.descriptors.isEmpty then 3 * f.topology.n_atoms
  else (f.descriptors.map FeatureDescriptor.dimension).sum

/-- A feature vector: one row of a Feature Matrix. -/
abbrev FeatureVector : Type := List ℚ

/-- Modelled from the spec: a Feature Matrix is a "two-dimensional numeric
array per trajectory, rows = time steps, columns = feature descriptors in
fixed order". -/
abbrev FeatureMatrix : Type := List FeatureVector

/-- Modelled from the spec: "missing/unreadable trajectory or topology file →
IOError, surfaced at load/stream-open time". -/
inductive LoadError where
  | ioError
deriving DecidableEq

/-- Featurize every frame of one trajectory, yielding its Feature Matrix. -/
def loadTrajectory (f : Featurizer) (t : Trajectory) : FeatureMatrix :=
  t.map f.featurize

/-- Resolve a list of file names against a file system (a partial map from
names to trajectories), failing with an IOError on the first missing file so
that no partial result is returned. -/
def resolve (fs : String → Option Trajectory) :
    List String → Except LoadError (List Trajectory)
  | [] => .ok []
  | n :: rest =>
    match fs n with
    | none => .error .ioError
    | some t =>
      match resolve fs rest with
      | .ok ts => .ok (t :: ts)
      | .error e => .error e

/-- `pyemma.coordinates.load(files, features=feat)`. Modelled from the spec:
eager mode loads "every frame of every file into memory, returning one
Feature Matrix per file". -/
def load (fs : String → Option Trajectory) (files : List String)
    (feat : Featurizer) : Except LoadError (List FeatureMatrix) :=
  match resolve fs files with
  | .ok ts => .ok (ts.map (loadTrajectory feat))
  | .error e => .error e

/-- Modelled from the spec: the streamed reader returned by
`pyemma.coordinates.source(files, features=feat)`, "a handle that can produce
frames in fixed-size chunks". -/
structure Reader where
  feat : Featurizer
  trajs : List Trajectory

/-- `pyemma.coordinates.source(files, features=feat)`: open a streamed reader
over the resolved files. -/
def source (fs : String → Option Trajectory) (files : List String)
    (feat : Featurizer) : Except LoadError Reader :=
  match resolve fs files with
  | .ok ts => .ok ⟨feat, ts⟩
  | .error e => .error e

/-- Split a list into consecutive chunks of size `C` (the last chunk may be
shorter); chunk size zero yields no chunks. -/
def chunkAux {α : Type} : ℕ → ℕ → List α → List (List α)
  | 0, _, _ => []
  | _ + 1, _, [] => []
  | fuel + 1, C, a :: rest =>
      ((a :: rest).take C) :: chunkAux fuel C ((a :: rest).drop C)

/-- Split a list into consecutive chunks of size `C` (the last chunk may be
shorter); the fuel argument of `chunkAux` is the list's length, enough for
any positive chunk size. -/
def chunkList {α : Type} (C : ℕ) (l : List α) : List (List α) :=
  chunkAux l.length C l

/-- One file's stream: the trajectory's frames delivered chunk by chunk, each
chunk featurized as it arrives. -/
def streamChunks (feat : Featurizer) (C : ℕ) (t : Trajectory) :
    List FeatureMatrix :=
  (chunkList C t).map (fun chunk => chunk.map feat.featurize)

/-- The reader's chunked output: per file, the list of featurized chunks. -/
def Reader.chunks (r : Reader) (C : ℕ) : List (List FeatureMatrix) :=
  r.trajs.map (streamChunks r.feat C)

/-- `reader.trajectory_length(i)`: the total frame count of file `i`, reported
from the trajectory's length alone. -/
def Reader.trajectory_length (r : Reader) (i : ℕ) : ℕ :=
  (r.trajs.getD i []).length

/-- Clamp a rational into the unit interval. -/
def clamp01 (q : ℚ) : ℚ := max 0 (min 1 q)

/-- Column `i` of a Feature Matrix as a time series. -/
def column (i : ℕ) (m : FeatureMatrix) : List ℚ :=
  m.map (fun row => row.getD i 0)

/-- Sum of products of consecutive entries of a time series (a lag-1
correlation statistic). -/
def lagProducts (xs : List ℚ) : ℚ :=
  ((xs.zip xs.tail).map (fun p => p.1 * p.2)).sum

/-- Sum of squares of a time series. -/
def squareSum (xs : List ℚ) : ℚ :=
  (xs.map (fun x => x * x)).sum

/-- Modelled from the spec: the per-process kinetic contribution of the
scorer's linear model. Spec §9 treats the numeric method as "a black-box
contract (monotonic, bounded, train/test-separable)"; it is modelled as a
normalized lag-1 correlation statistic of the train and test data, clamped to
[0, 1] as the contract requires (each dynamic process contributes between
nothing and one full unit to the score). -/
def processContribution (train test : List FeatureMatrix) (i : ℕ) : ℚ :=
  clamp01 ((train.map (fun m => lagProducts (column i m))).sum /
    (1 + (test.map (fun m => squareSum (column i m))).sum))

/-- Modelled from the spec: the VAMP-2 score, "Score ≥ 1, with 1 representing
the trivial (stationary-only) solution", the constant 1 plus one bounded
contribution per scored dynamic process. -/
def vampScore (dim : ℕ) (train test : List FeatureMatrix) : ℚ :=
  1 + ((List.range dim).map (processContribution train test)).sum

/-- Modelled from the spec: scoring failures, "ConfigurationError if dim
exceeds the feature dimensionality", "DataMismatchError if train/test feature
widths differ". -/
inductive ScoreError where
  | configurationError
  | dataMismatchError
deriving DecidableEq

/-- Column count of a Feature Matrix (its feature width). -/
def matrixWidth (m : FeatureMatrix) : ℕ := (m.headD []).length

/-- Feature width of the training set: the width of its first matrix. -/
def trainWidth (train : List FeatureMatrix) : ℕ := matrixWidth (train.headD [])

/-- The fitted linear model returned by `pyemma.coordinates.vamp(...)`. -/
structure VampModel where
  dim : ℕ
  width : ℕ
  train : List FeatureMatrix

/-- `pyemma.coordinates.vamp(train, dim=dim)`. Modelled from the spec: "fits a
linear model capturing a declared number of dominant slow processes (dim) on
the training data", failing with a ConfigurationError when `dim` exceeds the
training data's feature width. -/
def vamp (train : List FeatureMatrix) (dim : ℕ) :
    Except ScoreError VampModel :=
  if trainWidth train < dim then .error .configurationError
  else .ok ⟨dim, trainWidth train, train⟩

/-- `model.score(test_data=...)`: evaluate the fitted model on test data,
failing with a DataMismatchError when any test row's width differs from the
fitted feature width. -/
def VampModel.score (m : VampModel) (test : List FeatureMatrix) :
    Except ScoreError ℚ :=
  if test.all (fun t => t.all (fun row => row.length == m.width)) then
    .ok (vampScore m.dim m.train test)
  else .error .dataMismatchError

/-- A scoring call observed against the pipeline's previously computed Feature
Matrices: the call returns its result and passes the stored matrices through
untouched (spec §7: a scoring failure "fails the scoring call only; does not
corrupt previously computed Feature Matrices"). -/
def scoringCall (matrices : List (List FeatureMatrix))
    (train test : List FeatureMatrix) (dim : ℕ) :
    Except ScoreError ℚ × List (List FeatureMatrix) :=
  (match vamp train dim with
   | .ok m => m.score test
   | .error e => .error e, matrices)

/-- Embedded from the notebook cell computing `score_phi_psi`
(src/notebooks/01-data-io-and-featurization.ipynb):
`pyemma.coordinates.vamp(data[:-1], dim=2).score(test_data=data[-1], ...)` —
the (train, test) argument pair the cell passes. -/
def score_phi_psi_args (data : List FeatureMatrix) :
    List FeatureMatrix × List FeatureMatrix :=
  (data.dropLast, data.drop (data.length - 1))

/-- Embedded from the notebook cell computing `score_heavy_atoms`
(src/notebooks/01-data-io-and-featurization.ipynb):
`pyemma.coordinates.vamp(data[:-1], dim=2).score(test_data=data[:-1], ...)` —
the (train, test) argument pair the cell passes. -/
def score_heavy_atoms_args (data : List FeatureMatrix) :
    List FeatureMatrix × List FeatureMatrix :=
  (data.dropLast, data.dropLast)

/-! ## Helper lemmas -/

theorem sum_map_const_nat {α : Type} (c : ℕ) (l : List α) :
    (l.map (fun _ => c)).sum = c * l.length := by
  induction l with
  | nil => simp
  | cons a t ih =>
    simp only [List.map_cons, List.sum_cons, List.length_cons, ih]
    ring

theorem flattenCoords_length (fr : Frame) :
    (flattenCoords fr).length = 3 * fr.length := by
  induction fr with
  | nil => rfl
  | cons c rest ih =>
    simp only [flattenCoords, List.map_cons, List.flatten_cons, List.length_append,
      List.length_cons, List.length_nil] at ih ⊢
    omega

theorem applyDescriptor_length (fr : Frame) (d : FeatureDescriptor) :
    (applyDescriptor fr d).length = d.dimension := by
  cases d with
  | selection atoms =>
    simp only [applyDescriptor, FeatureDescriptor.dimension, List.length_flatten,
      List.map_map, Function.comp_def, List.length_cons, List.length_nil]
    simpa using sum_map_const_nat 3 atoms
  | distances ps =>
    simp [applyDescriptor, FeatureDescriptor.dimension]
  | dihedral qs cossin =>
    cases cossin with
    | false => simp [applyDescriptor, FeatureDescriptor.dimension]
    | true =>
      simp only [applyDescriptor, FeatureDescriptor.dimension, if_true,
        List.length_flatten, List.map_map, Function.comp_def, List.length_cons,
        List.length_nil]
      simpa using sum_map_const_nat 2 qs

theorem featurize_length_of_ne (f : Featurizer) (fr : Frame)
    (h : f.descriptors ≠ []) :
    (f.featurize fr).length = (f.descriptors.map FeatureDescriptor.dimension).sum := by
  have hne : f.descriptors.isEmpty = false := by
    cases hd : f.descriptors with
    | nil => exact absurd hd h
    | cons a t => rfl
  simp only [Featurizer.featurize, hne, Bool.false_eq_true, if_false,
    List.length_flatten, List.map_map, Function.comp_def]
  congr 1
  exact List.map_congr_left fun d _ => applyDescriptor_length fr d

theorem featurize_length (f : Featurizer) (fr : Frame)
    (hfr : fr.length = f.topology.n_atoms) :
    (f.featurize fr).length = f.dimension := by
  cases hd : f.descriptors with
  | nil =>
    have hne : f.descriptors.isEmpty = true := by simp [hd]
    simp only [Featurizer.featurize, Featurizer.dimension, hne, if_true,
      flattenCoords_length, hfr]
  | cons a t =>
    have hne : f.descriptors.isEmpty = false := by simp [hd]
    simp only [Featurizer.dimension, hne, Bool.false_eq_true, if_false]
    exact featurize_length_of_ne f fr (by simp [hd])

theorem allPairs_length (l : List ℕ) :
    2 * (allPairs l).length = l.length * (l.length - 1) := by
  induction l with
  | nil => rfl
  | cons a rest ih =>
    simp only [allPairs, List.length_append, List.length_map, List.length_cons]
    generalize hT : (allPairs rest).length = T at ih
    generalize hn : rest.length = n at ih ⊢
    cases n with
    | zero =>
      simp only [Nat.zero_mul, Nat.mul_zero] at ih ⊢
      omega
    | succ m =>
      have h2 : 2 * T = (m + 1) * m := by simpa using ih
      calc 2 * (m + 1 + T) = 2 * (m + 1) + 2 * T := by ring
        _ = 2 * (m + 1) + (m + 1) * m := by rw [h2]
        _ = (m + 1 + 1) * (m + 1 + 1 - 1) := by rw [Nat.add_sub_cancel]; ring

theorem chunkAux_flatten {α : Type} :
    ∀ (fuel C : ℕ) (l : List α), 0 < C → l.length ≤ fuel →
      (chunkAux fuel C l).flatten = l := by
  intro fuel
  induction fuel with
  | zero =>
    intro C l _ hl
    have h0 : l = [] := List.length_eq_zero.mp (Nat.le_zero.mp hl)
    subst h0
    rfl
  | succ n ih =>
    intro C l hC hl
    cases l with
    | nil => rfl
    | cons a rest =>
      have hlen : ((a :: rest).drop C).length ≤ n := by
        simp only [List.length_drop, List.length_cons]
        simp only [List.length_cons] at hl
        omega
      simp only [chunkAux, List.flatten_cons, ih C _ hC hlen]
      exact List.take_append_drop C (a :: rest)

theorem chunkList_flatten {α : Type} (C : ℕ) (hC : 0 < C) (l : List α) :
    (chunkList C l).flatten = l :=
  chunkAux_flatten l.length C l hC le_rfl

theorem streamChunks_flatten (feat : Featurizer) (C : ℕ) (hC : 0 < C)
    (t : Trajectory) :
    (streamChunks feat C t).flatten = loadTrajectory feat t := by
  unfold streamChunks loadTrajectory
  rw [← List.map_flatten, chunkList_flatten C hC t]

theorem resolve_congr (fs fs2 : String → Option Trajectory) (files : List String)
    (h : ∀ n ∈ files, fs n = fs2 n) : resolve fs files = resolve fs2 files := by
  induction files with
  | nil => rfl
  | cons n rest ih =>
    simp only [resolve]
    rw [h n (List.mem_cons_self n rest),
      ih fun m hm => h m (List.mem_cons_of_mem n hm)]

theorem resolve_ok_mem (fs : String → Option Trajectory) (files : List String)
    (ts : List Trajectory) (h : resolve fs files = .ok ts) :
    ∀ t ∈ ts, ∃ n ∈ files, fs n = some t := by
  induction files generalizing ts with
  | nil =>
    simp only [resolve, Except.ok.injEq] at h
    subst h
    simp
  | cons n rest ih =>
    simp only [resolve] at h
    cases hfs : fs n with
    | none => rw [hfs] at h; exact absurd h (by simp)
    | some t0 =>
      rw [hfs] at h
      cases hres : resolve fs rest with
      | error e => rw [hres] at h; exact absurd h (by simp)
      | ok ts0 =>
        rw [hres] at h
        simp only [Except.ok.injEq] at h
        subst h
        intro t ht
        rcases List.mem_cons.mp ht with rfl | ht0
        · exact ⟨n, List.mem_cons_self n rest, hfs⟩
        · obtain ⟨m, hm, hfsm⟩ := ih ts0 hres t ht0
          exact ⟨m, List.mem_cons_of_mem n hm, hfsm⟩

theorem clamp01_bounds (q : ℚ) : 0 ≤ clamp01 q ∧ clamp01 q ≤ 1 :=
  ⟨le_max_left 0 _, max_le (by norm_num) (min_le_left 1 q)⟩

theorem sum_bounds_of_mem (l : List ℚ) (h : ∀ x ∈ l, 0 ≤ x ∧ x ≤ 1) :
    0 ≤ l.sum ∧ l.sum ≤ (l.length : ℚ) := by
  induction l with
  | nil => simp
  | cons a t ih =>
    have ha := h a (List.mem_cons_self a t)
    have ht := ih fun x hx => h x (List.mem_cons_of_mem a hx)
    simp only [List.sum_cons, List.length_cons]
    constructor
    · linarith [ht.1, ha.1]
    · push_cast
      linarith [ht.2, ha.2]

/-! ## Claim theorems -/

/-- C1: for every Variance Scorer invocation with a declared dimension `dim`
not exceeding the feature width, the VAMP-2 score is at least 1 (the trivial
stationary-only solution) and at most dim + 1. -/
theorem C1_vamp_score_bounds (dim : ℕ) (train test : List FeatureMatrix)
    (h : dim ≤ trainWidth train) :
    1 ≤ vampScore dim train test ∧
      vampScore dim train test ≤ (dim : ℚ) + 1 := by
  have hb : ∀ x ∈ (List.range dim).map (processContribution train test),
      0 ≤ x ∧ x ≤ 1 := by
    intro x hx
    obtain ⟨i, _, rfl⟩ := List.mem_map.mp hx
    exact clamp01_bounds _
  have hs := sum_bounds_of_mem _ hb
  have hlen :
      ((((List.range dim).map (processContribution train test)).length : ℕ) : ℚ)
        = (dim : ℚ) := by simp
  unfold vampScore
  constructor
  · linarith [hs.1]
  · rw [hlen] at hs
    linarith [hs.2]

/-- Witness for C1 at the spec's example shape: 2-column feature matrices and
dim = 2 give a score within [1, 3]. -/
theorem C1_witness :
    1 ≤ vampScore 2 [[[1, 2], [3, 4]]] [[[5, 6]]] ∧
      vampScore 2 [[[1, 2], [3, 4]]] [[[5, 6]]] ≤ ((2 : ℕ) : ℚ) + 1 :=
  C1_vamp_score_bounds 2 [[[1, 2], [3, 4]]] [[[5, 6]]] (by decide)

/-- C2: evaluated on three feature matrices, the notebook's heavy-atom scoring
cell passes the training data itself as the test data (the two argument lists
coincide and share their first matrix), whereas the protocol documented in the
notebook — and followed by the phi/psi cell — holds out the last file as the
test set. -/
theorem C2_heavy_atoms_test_is_train :
    (score_heavy_atoms_args [[[0]], [[1]], [[2]]]).2 =
        (score_heavy_atoms_args [[[0]], [[1]], [[2]]]).1 ∧
      [[0]] ∈ (score_heavy_atoms_args [[[0]], [[1]], [[2]]]).1 ∧
      [[0]] ∈ (score_heavy_atoms_args [[[0]], [[1]], [[2]]]).2 ∧
      (score_phi_psi_args [[[0]], [[1]], [[2]]]).2 = [[[2]]] :=
  ⟨rfl, List.mem_cons_self _ _, List.mem_cons_self _ _, rfl⟩

/-- C4: the per-frame feature vector of a featurizer with declared descriptors
has length equal to the sum of the descriptors' output widths, and descriptor
outputs appear in declaration order (appending a declaration appends its
output slice). -/
theorem C4_featurize_width_order (top : Topology) (ds : List FeatureDescriptor)
    (d : FeatureDescriptor) (fr : Frame) (h : ds ≠ []) :
    ((Featurizer.mk top ds).featurize fr).length =
        (ds.map FeatureDescriptor.dimension).sum ∧
      (Featurizer.mk top (ds ++ [d])).featurize fr =
        (Featurizer.mk top ds).featurize fr ++ applyDescriptor fr d := by
  have h2 : ds.isEmpty = false := by
    cases ds with
    | nil => exact absurd rfl h
    | cons a t => rfl
  constructor
  · exact featurize_length_of_ne ⟨top, ds⟩ fr h
  · have h1 : (ds ++ [d]).isEmpty = false := by cases ds <;> simp
    simp only [Featurizer.featurize, h1, h2, Bool.false_eq_true, if_false,
      List.map_append, List.flatten_append, List.map_cons, List.map_nil,
      List.flatten_cons, List.flatten_nil, List.append_nil]

/-- Witness for C4: a selection plus an appended distance descriptor on a
2-atom topology. -/
theorem C4_witness :
    (((Featurizer.mk ⟨2⟩ [.selection [0]]).featurize
          [(1, 2, 3), (4, 5, 6)]).length =
        ([FeatureDescriptor.selection [0]].map FeatureDescriptor.dimension).sum ∧
      (Featurizer.mk ⟨2⟩ ([.selection [0]] ++ [.distances [(0, 1)]])).featurize
          [(1, 2, 3), (4, 5, 6)] =
        (Featurizer.mk ⟨2⟩ [.selection [0]]).featurize [(1, 2, 3), (4, 5, 6)] ++
          applyDescriptor [(1, 2, 3), (4, 5, 6)] (.distances [(0, 1)])) :=
  C4_featurize_width_order ⟨2⟩ [.selection [0]] (.distances [(0, 1)])
    [(1, 2, 3), (4, 5, 6)] (by simp)

/-- C5: with no declared descriptors, the featurizer produces the flattened
Cartesian coordinates of all atoms, a vector of width 3N for an N-atom
topology. -/
theorem C5_default_cartesian (f : Featurizer) (fr : Frame)
    (h : f.descriptors = []) (hfr : fr.length = f.topology.n_atoms) :
    f.featurize fr = flattenCoords fr ∧
      (f.featurize fr).length = 3 * f.topology.n_atoms := by
  have hemp : f.descriptors.isEmpty = true := by simp [h]
  constructor
  · simp [Featurizer.featurize, hemp]
  · simp [Featurizer.featurize, hemp, flattenCoords_length, hfr]

/-- Witness for C5: a fresh featurizer over a 2-atom topology yields the six
flattened coordinates of a 2-atom frame. -/
theorem C5_witness :
    (featurizer ⟨2⟩).featurize [(0, 0, 0), (1, 2, 3)] =
        flattenCoords [(0, 0, 0), (1, 2, 3)] ∧
      ((featurizer ⟨2⟩).featurize [(0, 0, 0), (1, 2, 3)]).length = 3 * 2 :=
  C5_default_cartesian (featurizer ⟨2⟩) [(0, 0, 0), (1, 2, 3)] rfl rfl

/-- C6: declaring a pairwise-distance descriptor over the unordered pairs of
an M-atom selection yields feature vectors of width M·(M−1)/2. -/
theorem C6_pairwise_distance_width (f f2 : Featurizer) (sel : List ℕ)
    (fr : Frame) (h0 : f.descriptors = [])
    (h : f.add_distances (f.pairs sel) = .ok f2) :
    (f2.featurize fr).length = sel.length * (sel.length - 1) / 2 := by
  unfold Featurizer.add_distances Featurizer.add at h
  split at h
  · simp only [Except.ok.injEq] at h
    subst h
    have hne :
        (Featurizer.mk f.topology
          (f.descriptors ++ [.distances (f.pairs sel)])).descriptors ≠ [] := by
      simp
    rw [featurize_length_of_ne _ fr hne]
    simp only [h0, List.nil_append, List.map_cons, List.map_nil, List.sum_cons,
      List.sum_nil, FeatureDescriptor.dimension, Nat.add_zero]
    have h2 := allPairs_length sel
    unfold Featurizer.pairs
    omega
  · exact absurd h (by simp)

/-- Witness for C6: three selected atoms on a 3-atom topology give a width-3
distance feature (3 · 2 / 2 unordered pairs). -/
theorem C6_witness :
    ((Featurizer.mk ⟨3⟩
          [.distances [(0, 1), (0, 2), (1, 2)]]).featurize [(0, 0, 0)]).length =
      [0, 1, 2].length * ([0, 1, 2].length - 1) / 2 :=
  C6_pairwise_distance_width (featurizer ⟨3⟩)
    (Featurizer.mk ⟨3⟩ [.distances [(0, 1), (0, 2), (1, 2)]]) [0, 1, 2]
    [(0, 0, 0)] rfl rfl

/-- C7: every descriptor-addition call whose descriptor mentions an atom index
outside the topology — a selection, a distance pair, or a dihedral quadruple —
fails with the out-of-range error at declaration time (no featurizer is
produced, so the failure cannot be deferred to feature computation). -/
theorem C7_invalid_descriptor_fails (f : Featurizer) (d : FeatureDescriptor)
    (h : ∃ a ∈ d.indices, f.topology.n_atoms ≤ a) :
    f.add d = .error .outOfRange := by
  obtain ⟨a, ha, hge⟩ := h
  unfold Featurizer.add
  have hval : d.validFor f.topology.n_atoms = false := by
    simp only [FeatureDescriptor.validFor, List.all_eq_false]
    exact ⟨a, ha, by simpa using hge⟩
  simp [hval]

/-- Witness for C7: against a 2-atom topology, an out-of-range atom index is
rejected at declaration time for each descriptor-addition call — a selection,
a distance-pair list, and a dihedral (torsion) list alike. -/
theorem C7_witness :
    (featurizer ⟨2⟩).add_selection [5] = .error .outOfRange ∧
      (featurizer ⟨2⟩).add_distances [(0, 7)] = .error .outOfRange ∧
      (featurizer ⟨2⟩).add_torsions [(0, 1, 2, 9)] true = .error .outOfRange :=
  ⟨C7_invalid_descriptor_fails (featurizer ⟨2⟩) (.selection [5])
      ⟨5, by decide, by decide⟩,
    C7_invalid_descriptor_fails (featurizer ⟨2⟩) (.distances [(0, 7)])
      ⟨7, by decide, by decide⟩,
    C7_invalid_descriptor_fails (featurizer ⟨2⟩) (.dihedral [(0, 1, 2, 9)] true)
      ⟨9, by decide, by decide⟩⟩

/-- C3: eager loading and the streamed reader agree — per file, concatenating
the reader's featurized chunks yields exactly the eagerly loaded Feature
Matrix, and the reader reports each file's total frame count, matching the
eager matrix's row count. -/
theorem C3_stream_eager_agree (fs : String → Option Trajectory)
    (files : List String) (feat : Featurizer) (r : Reader)
    (mats : List FeatureMatrix) (C : ℕ)
    (hr : source fs files feat = .ok r)
    (hl : load fs files feat = .ok mats) (hC : 0 < C) :
    (r.chunks C).map List.flatten = mats ∧
      ∀ i, r.trajectory_length i = (mats.getD i []).length := by
  unfold source at hr
  unfold load at hl
  cases hres : resolve fs files with
  | error e => rw [hres] at hr; exact absurd hr (by simp)
  | ok ts =>
    rw [hres] at hr hl
    simp only [Except.ok.injEq] at hr hl
    subst hr
    subst hl
    constructor
    · simp only [Reader.chunks, List.map_map, Function.comp_def]
      exact List.map_congr_left fun t _ => streamChunks_flatten feat C hC t
    · intro i
      simp only [Reader.trajectory_length, List.getD_eq_getElem?_getD,
        List.getElem?_map]
      cases hti : ts[i]? with
      | none => simp
      | some t => simp [loadTrajectory]

/-- Witness for C3: one file of two one-atom frames, chunk size 1. -/
theorem C3_witness :
    ((Reader.mk (featurizer ⟨1⟩) [[[(1, 1, 1)], [(2, 2, 2)]]]).chunks 1).map
        List.flatten = [[[1, 1, 1], [2, 2, 2]]] ∧
      (Reader.mk (featurizer ⟨1⟩)
          [[[(1, 1, 1)], [(2, 2, 2)]]]).trajectory_length 0 =
        (([[[1, 1, 1], [2, 2, 2]]] : List FeatureMatrix).getD 0 []).length :=
  ⟨(C3_stream_eager_agree (fun _ => some [[(1, 1, 1)], [(2, 2, 2)]]) ["a"]
      (featurizer ⟨1⟩) (Reader.mk (featurizer ⟨1⟩) [[[(1, 1, 1)], [(2, 2, 2)]]])
      [[[1, 1, 1], [2, 2, 2]]] 1 rfl rfl (by decide)).1,
    (C3_stream_eager_agree (fun _ => some [[(1, 1, 1)], [(2, 2, 2)]]) ["a"]
      (featurizer ⟨1⟩) (Reader.mk (featurizer ⟨1⟩) [[[(1, 1, 1)], [(2, 2, 2)]]])
      [[[1, 1, 1], [2, 2, 2]]] 1 rfl rfl (by decide)).2 0⟩

/-- C8: a declared dimension above the feature width fails the scoring call
with the configuration error; mismatched train/test widths fail it with the
data-mismatch error; in every case the call returns the previously computed
feature matrices exactly as they were. -/
theorem C8_scoring_failure_isolation (st : List (List FeatureMatrix))
    (train test : List FeatureMatrix) (dim : ℕ) :
    (scoringCall st train test dim).2 = st ∧
      (trainWidth train < dim →
        (scoringCall st train test dim).1 = .error .configurationError) ∧
      (dim ≤ trainWidth train →
        (test.all fun m => m.all fun row => row.length == trainWidth train)
            = false →
        (scoringCall st train test dim).1 = .error .dataMismatchError) := by
  refine ⟨rfl, ?_, ?_⟩
  · intro hdim
    simp only [scoringCall, vamp, if_pos hdim]
  · intro hdim hmm
    have hv : vamp train dim = .ok ⟨dim, trainWidth train, train⟩ := by
      simp [vamp, Nat.not_lt.mpr hdim]
    simp only [scoringCall, hv, VampModel.score, hmm, Bool.false_eq_true,
      if_false]

/-- Witness for C8: fitting on a 2-column matrix, dim = 3 triggers the
configuration error and a 1-column test set triggers the data-mismatch error;
the stored matrices come back unchanged. -/
theorem C8_witness :
    (scoringCall [[[[5]]]] [[[1, 2]]] [[[3]]] 3).2 = [[[[5]]]] ∧
      (scoringCall [[[[5]]]] [[[1, 2]]] [[[3]]] 3).1 =
        .error .configurationError ∧
      (scoringCall [[[[5]]]] [[[1, 2]]] [[[3]]] 1).1 =
        .error .dataMismatchError :=
  ⟨(C8_scoring_failure_isolation [[[[5]]]] [[[1, 2]]] [[[3]]] 3).1,
    (C8_scoring_failure_isolation [[[[5]]]] [[[1, 2]]] [[[3]]] 3).2.1
      (by decide),
    (C8_scoring_failure_isolation [[[[5]]]] [[[1, 2]]] [[[3]]] 1).2.2
      (by decide) (by decide)⟩

/-- C9: every Feature Matrix produced by one eager load through a shared
featurizer has the same column count in every row: the featurizer's declared
dimension. -/
theorem C9_uniform_columns (fs : String → Option Trajectory)
    (files : List String) (feat : Featurizer) (mats : List FeatureMatrix)
    (hl : load fs files feat = .ok mats)
    (hwf : ∀ n ∈ files, ∀ t, fs n = some t →
      ∀ fr ∈ t, fr.length = feat.topology.n_atoms) :
    ∀ m ∈ mats, ∀ row ∈ m, row.length = feat.dimension := by
  unfold load at hl
  cases hres : resolve fs files with
  | error e => rw [hres] at hl; exact absurd hl (by simp)
  | ok ts =>
    rw [hres] at hl
    simp only [Except.ok.injEq] at hl
    subst hl
    intro m hm row hrow
    obtain ⟨t, ht, rfl⟩ := List.mem_map.mp hm
    simp only [loadTrajectory] at hrow
    obtain ⟨fr, hfr, rfl⟩ := List.mem_map.mp hrow
    obtain ⟨n, hn, hfsn⟩ := resolve_ok_mem fs files ts hres t ht
    exact featurize_length feat fr (hwf n hn t hfsn fr hfr)

/-- Witness for C9: two files through a shared one-atom selection featurizer;
the first row of the first matrix has the declared width. -/
theorem C9_witness :
    ([1, 2, 3] : FeatureVector).length =
      (Featurizer.mk ⟨1⟩ [.selection [0]]).dimension :=
  C9_uniform_columns (fun _ => some [[(1, 2, 3)]]) ["a", "b"]
    (Featurizer.mk ⟨1⟩ [.selection [0]]) [[[1, 2, 3]], [[1, 2, 3]]] rfl
    (by
      intro n hn t ht fr hfr
      simp only [Option.some.injEq] at ht
      subst ht
      simp only [List.mem_singleton] at hfr
      subst hfr
      rfl)
    [[1, 2, 3]] (by simp) [1, 2, 3] (by simp)

/-- C10: eager loading is deterministic — its result is a function of the
featurizer and the contents of the named files alone, so any two file systems
agreeing on the named files (in particular the same one twice) produce
identical lists of Feature Matrices. -/
theorem C10_load_deterministic (fs fs2 : String → Option Trajectory)
    (files : List String) (feat : Featurizer)
    (h : ∀ n ∈ files, fs n = fs2 n) :
    load fs files feat = load fs2 files feat := by
  unfold load
  rw [resolve_congr fs fs2 files h]

/-- Witness for C10: two syntactically different file systems that agree on
the loaded file produce the same load result. -/
theorem C10_witness :
    load (fun _ => some [[(1, 1, 1)]]) ["a"] (featurizer ⟨1⟩) =
      load (fun n => if n = "a" then some [[(1, 1, 1)]] else none) ["a"]
        (featurizer ⟨1⟩) :=
  C10_load_deterministic (fun _ => some [[(1, 1, 1)]])
    (fun n => if n = "a" then some [[(1, 1, 1)]] else none) ["a"]
    (featurizer ⟨1⟩)
    (by intro n hn; simp only [List.mem_singleton] at hn; subst hn; simp)
